import Mathlib

/-!
Verification of the bond-scraper extraction core
(`client/src/app/scraper/scraper.ts`).

The extraction engine runs inside `page.evaluate` over the rendered DOM.
We embed it shallowly:

* a rendered document is a `RenderedDoc`: its `<table>` elements (each a
  list of rows, each row the trimmed-at-source `textContent` of its
  `td`/`th` cells in order), the elements reachable from the fixed
  selector list (`SelElement`, carrying the attributes those selectors
  inspect plus the row/cell structure the code enumerates), and the
  `document.body.innerText` dump;
* JavaScript numbers produced by `parseFloat` are modelled exactly: every
  value `parseFloat` can return here is a decimal `num / 10^scale`
  (`Dec`), or an infinity, or `NaN` (`JSNum`).  No float rounding occurs
  at the precision of the claims (the spec fixes source precision);
* `new Date().toISOString()` is an opaque timestamp string threaded as a
  `now` parameter.
-/

/-! ### JavaScript string primitives -/

/-- Is `pat` a prefix of `s` (character lists)? -/
def startsWithChars : List Char → List Char → Bool
  | [], _ => true
  | _ :: _, [] => false
  | a :: as, b :: bs => a == b && startsWithChars as bs

/-- Does `s` contain `pat` as a contiguous substring (character lists)? -/
def containsChars : List Char → List Char → Bool
  | [], pat => pat.isEmpty
  | c :: rest, pat => startsWithChars pat (c :: rest) || containsChars rest pat

/-- JavaScript `String.prototype.includes`. -/
def strIncludes (s pat : String) : Bool := containsChars s.toList pat.toList

/-- JavaScript `String.prototype.toLowerCase` (ASCII range, which is all the
code compares). -/
def toLowerStr (s : String) : String := String.mk (s.toList.map Char.toLower)

/-- JavaScript `String.prototype.trim`. -/
def jsTrim (s : String) : String :=
  String.mk (((s.toList.dropWhile Char.isWhitespace).reverse.dropWhile Char.isWhitespace).reverse)

/-- Split a character list at every separator character. -/
def splitOnPred (p : Char → Bool) : List Char → List (List Char)
  | [] => [[]]
  | c :: rest =>
    if p c then [] :: splitOnPred p rest
    else
      match splitOnPred p rest with
      | [] => [[c]]
      | g :: gs => (c :: g) :: gs

/-- JavaScript `String.prototype.split(sep)` for a single-character
separator, on character lists. -/
def splitOnChar (sep : Char) : List Char → List (List Char) :=
  splitOnPred (fun c => c == sep)

/-- JavaScript `Array.prototype.join(" ")`. -/
def joinSp : List String → String
  | [] => ""
  | [s] => s
  | s :: rest => s ++ " " ++ joinSp rest

/-- The regex class `\w`. -/
def isWordChar (c : Char) : Bool := c.isAlpha || c.isDigit || c == '_'

/-! ### JavaScript numbers, at the precision `parseFloat` is used here -/

/-- An exact decimal `num / 10 ^ scale`. -/
structure Dec where
  num : Int
  scale : Nat
deriving DecidableEq

/-- The rational value of a `Dec`. -/
def Dec.toQ (d : Dec) : ℚ := (d.num : ℚ) / (10 : ℚ) ^ d.scale

/-- A JavaScript number as produced by `parseFloat` on this code's inputs:
an exact decimal, an infinity, or `NaN`. -/
inductive JSNum where
  | finite (v : Dec)
  | posInf
  | negInf
  | nan
deriving DecidableEq

/-- Is the value a finite number? -/
def JSNum.isFinite : JSNum → Bool
  | .finite _ => true
  | _ => false

/-- JavaScript truthiness of a number (`0`, `-0` and `NaN` are falsy). -/
def jsTruthy : JSNum → Bool
  | .finite d => decide (d.num ≠ 0)
  | .nan => false
  | _ => true

/-- JavaScript unary minus on a number. -/
def negJS : JSNum → JSNum
  | .finite d => .finite ⟨-d.num, d.scale⟩
  | .posInf => .negInf
  | .negInf => .posInf
  | .nan => .nan

/-! ### `parseFloat` (ECMAScript `parseFloat`, longest valid prefix) -/

/-- Value of a digit string read in base 10. -/
def digitsVal (ds : List Char) : Nat :=
  ds.foldl (fun a c => 10 * a + (c.toNat - 48)) 0

/-- Value of `intDs . fracDs` as an exact decimal. -/
def sigValue (intDs fracDs : List Char) : Dec :=
  ⟨(digitsVal intDs : Int) * (10 : Int) ^ fracDs.length + (digitsVal fracDs : Int),
   fracDs.length⟩

/-- Scale a decimal by `10 ^ e`. -/
def applyExp (d : Dec) (e : Int) : Dec :=
  if 0 ≤ e then ⟨d.num * (10 : Int) ^ e.toNat, d.scale⟩
  else ⟨d.num, d.scale + (-e).toNat⟩

/-- Exponent part after the `e`/`E` marker: optional sign then digits;
an empty digit run means the exponent is not part of the match. -/
def parseExpTail (cs : List Char) : Int :=
  match cs with
  | '-' :: rest =>
    let ds := rest.takeWhile Char.isDigit
    if ds.isEmpty then 0 else -(digitsVal ds : Int)
  | '+' :: rest =>
    let ds := rest.takeWhile Char.isDigit
    if ds.isEmpty then 0 else (digitsVal ds : Int)
  | _ =>
    let ds := cs.takeWhile Char.isDigit
    if ds.isEmpty then 0 else (digitsVal ds : Int)

/-- Exponent part of a decimal literal (`0` when absent). -/
def parseExp (cs : List Char) : Int :=
  match cs with
  | 'e' :: rest => parseExpTail rest
  | 'E' :: rest => parseExpTail rest
  | _ => 0

/-- Unsigned decimal literal: digits, optional `.` and more digits,
optional exponent; `NaN` when no digit is found. -/
def parseSig (cs : List Char) : JSNum :=
  let intDs := cs.takeWhile Char.isDigit
  let r1 := cs.dropWhile Char.isDigit
  let fracDs :=
    match r1 with
    | '.' :: rest => rest.takeWhile Char.isDigit
    | _ => []
  let r2 :=
    match r1 with
    | '.' :: rest => rest.dropWhile Char.isDigit
    | _ => r1
  if intDs.isEmpty && fracDs.isEmpty then JSNum.nan
  else JSNum.finite (applyExp (sigValue intDs fracDs) (parseExp r2))

/-- The literal `Infinity`. -/
def infinityChars : List Char := ['I', 'n', 'f', 'i', 'n', 'i', 't', 'y']

/-- Unsigned part of `parseFloat`: the `Infinity` literal or a decimal
literal. -/
def parseMag (cs : List Char) : JSNum :=
  if startsWithChars infinityChars cs then JSNum.posInf else parseSig cs

/-- Optional sign then unsigned part. -/
def parseSigned (cs : List Char) : JSNum :=
  match cs with
  | [] => parseMag []
  | c :: rest =>
    if c == '-' then negJS (parseMag rest)
    else if c == '+' then parseMag rest
    else parseMag (c :: rest)

/-- `parseFloat` on a character list: skip leading whitespace, then parse
the longest valid numeric prefix; `NaN` when there is none. -/
def parseFloatChars (cs : List Char) : JSNum :=
  parseSigned (cs.dropWhile Char.isWhitespace)

/-- JavaScript `parseFloat` on a string. -/
def parseFloat (s : String) : JSNum := parseFloatChars s.toList

/-! ### The Numeric Normalizer (`parseNumeric` in the source) -/

/-- `text.replace(/[,%$£€¥]/g, '')`. -/
def stripFmt (text : String) : String :=
  String.mk (text.toList.filter (fun c => !([',', '%', '$', '£', '€', '¥'].contains c)))

/-- `parseNumeric` from the source:
`null` for empty / whitespace-only / `--` / `N/A`; otherwise strip
formatting characters, trim, `parseFloat`, and `null` when that is `NaN`. -/
def parseNumeric (text : String) : Option JSNum :=
  if text = "" || jsTrim text = "" || text = "--" || text = "N/A" then none
  else
    let num := parseFloat (jsTrim (stripFmt text))
    if num = JSNum.nan then none else some num

/-! ### Data model -/

/-- `BloombergBondData` from the source. -/
structure Bond where
  country : String
  name : String
  coupon : Option JSNum
  price : Option JSNum
  yield : Option JSNum
  oneMonth : Option JSNum
  oneYear : Option JSNum
  scrapedAt : String
deriving DecidableEq

/-- An element reachable from the fixed selector list, with the attributes
those selectors inspect and the row/cell structure the code enumerates
(`tr, .table-row, [role="row"]` rows; cell text per row). -/
structure SelElement where
  className : String
  dataModule : Option String
  dataTestid : Option String
  role : Option String
  rows : List (List String)
deriving DecidableEq

/-- A rendered document as the extraction engine queries it. -/
structure RenderedDoc where
  tables : List (List (List String))
  elements : List SelElement
  bodyText : String
deriving DecidableEq

/-! ### Strategy 1: the Structured-Table Extractor -/

/-- `cells[k]?.textContent?.trim() || ''`. -/
def cellText (row : List String) (k : Nat) : String := jsTrim (row.getD k "")

/-- Row `textContent`: concatenation of the cell texts. -/
def rowText (row : List String) : String := String.join row

/-- Header-keyword test on a table's first row (`headerText.includes(...)`
chain in the source). -/
def headerMatch (t : List (List String)) : Bool :=
  let headerText := toLowerStr (rowText (t.headD []))
  strIncludes headerText "name" || strIncludes headerText "security" ||
  strIncludes headerText "bond" || strIncludes headerText "gilt" ||
  strIncludes headerText "treasury" || strIncludes headerText "yield" ||
  strIncludes headerText "maturity" || strIncludes headerText "coupon"

/-- One data row of a classified table: positional cell mapping plus the
name-validation conjunction from the source. -/
def tableRowBond (countryName now : String) (row : List String) : Option Bond :=
  if row.length < 2 then none
  else
    let name := cellText row 0
    if name != "" && decide (1 < name.length) &&
       !(strIncludes (toLowerStr name) "name") &&
       !(strIncludes (toLowerStr name) "security") &&
       (name.toList.any Char.isDigit || strIncludes (toLowerStr name) "year" ||
        strIncludes (toLowerStr name) "month" || strIncludes (toLowerStr name) "gilt" ||
        strIncludes (toLowerStr name) "treasury" || strIncludes (toLowerStr name) "bond")
    then
      some { country := countryName, name := name,
             coupon := parseNumeric (cellText row 1),
             price := parseNumeric (cellText row 2),
             yield := parseNumeric (cellText row 3),
             oneMonth := parseNumeric (cellText row 4),
             oneYear := parseNumeric (cellText row 5),
             scrapedAt := now }
    else none

/-- Records contributed by one `<table>`: skipped when it has fewer than 2
rows or its header matches no keyword. -/
def tableBonds (countryName now : String) (t : List (List String)) : List Bond :=
  if t.length < 2 then []
  else if headerMatch t then (t.drop 1).filterMap (tableRowBond countryName now)
  else []

/-- Strategy 1 of `scrapeCountryBonds`: scan every table, pushing accepted
rows in document order. -/
def extractFromTables (doc : RenderedDoc) (countryName now : String) : List Bond :=
  doc.tables.foldl (fun acc t => acc ++ tableBonds countryName now t) []

/-! ### Strategy 2: the Attribute-Selector Extractor -/

/-- The selector shapes occurring in `bloombergSelectors`. -/
inductive BBSelector where
  | classWord (s : String)
  | classContains (s : String)
  | moduleEq (s : String)
  | testidContains (s : String)
  | roleEq (s : String)
deriving DecidableEq

/-- CSS matching of one selector against an element. -/
def selMatches (sel : BBSelector) (el : SelElement) : Bool :=
  match sel with
  | .classWord s =>
    ((splitOnPred Char.isWhitespace el.className.toList).map String.mk).contains s
  | .classContains s => strIncludes el.className s
  | .moduleEq s => el.dataModule == some s
  | .testidContains s =>
    match el.dataTestid with
    | some t => strIncludes t s
    | none => false
  | .roleEq s => el.role == some s

/-- The fixed `bloombergSelectors` list, in source order. -/
def bloombergSelectors : List BBSelector :=
  [ .moduleEq "DataTable",
    .classWord "data-table",
    .classWord "bond-table",
    .classContains "table",
    .classContains "bond",
    .classContains "security",
    .classWord "bb-table",
    .testidContains "table",
    .roleEq "table",
    .classWord "rates-table" ]

/-- One row of a selector-matched container: the looser acceptance test
(`name.length > 2` and a word character). -/
def selRowBond (countryName now : String) (row : List String) : Option Bond :=
  if row.length < 2 then none
  else
    let name := cellText row 0
    if name != "" && decide (2 < name.length) && name.toList.any isWordChar then
      some { country := countryName, name := name,
             coupon := parseNumeric (cellText row 1),
             price := parseNumeric (cellText row 2),
             yield := parseNumeric (cellText row 3),
             oneMonth := parseNumeric (cellText row 4),
             oneYear := parseNumeric (cellText row 5),
             scrapedAt := now }
    else none

/-- Rows of one matched container, skipping index 0 (assumed header). -/
def elementBonds (countryName now : String) (el : SelElement) : List Bond :=
  (el.rows.drop 1).filterMap (selRowBond countryName now)

/-- All records contributed by one selector: every matching element's rows,
in document order. -/
def selectorBonds (doc : RenderedDoc) (countryName now : String) (sel : BBSelector) : List Bond :=
  (doc.elements.filter (selMatches sel)).foldl
    (fun acc el => acc ++ elementBonds countryName now el) []

/-- Strategy 2 of `scrapeCountryBonds`: accumulate across all selectors in
list order. -/
def extractFromSelectors (doc : RenderedDoc) (countryName now : String) : List Bond :=
  bloombergSelectors.foldl (fun acc sel => acc ++ selectorBonds doc countryName now sel) []

/-! ### Strategy 3: the Freeform-Text Extractor -/

/-- One global-match step of the regex `\d+\.\d{1,4}`: tokens are scanned
left to right, each being a maximal digit run, a dot, then greedily one to
four digits; scanning resumes after the consumed token.  `fuel` bounds the
recursion (every step consumes at least one character, so `cs.length`
suffices). -/
def scanGo : Nat → List Char → List String
  | 0, _ => []
  | _ + 1, [] => []
  | fuel + 1, c :: rest =>
    if c.isDigit then
      let ds := (c :: rest).takeWhile Char.isDigit
      match (c :: rest).dropWhile Char.isDigit with
      | '.' :: r2 =>
        let fs := r2.takeWhile Char.isDigit
        if fs.isEmpty then scanGo fuel r2
        else String.mk (ds ++ '.' :: fs.take 4) :: scanGo fuel (r2.drop (fs.take 4).length)
      | r1 => scanGo fuel r1
    else scanGo fuel rest

/-- `text.match(/\d+\.\d{1,4}/g) || []`, as the token list. -/
def scanNumbers (cs : List Char) : List String := scanGo cs.length cs

/-- `bondKeywords[countryName] || ['bond', 'treasury']`. -/
def bondKeywords (countryName : String) : List String :=
  if countryName = "United States" then ["treasury", "bond", "note", "bill"]
  else if countryName = "United Kingdom" then ["gilt", "treasury", "bond"]
  else if countryName = "Germany" then ["bund", "bobl", "schatz", "treasury"]
  else if countryName = "Japan" then ["bond", "treasury", "jgb"]
  else if countryName = "Australia" then ["bond", "treasury", "agb"]
  else ["bond", "treasury"]

/-- `parseFloat(numbers[j]) || null`: a missing token is `undefined`, whose
`parseFloat` is `NaN`, hence falsy, hence `null`; a present token whose
parsed value is falsy (`0` or `NaN`) is also `null`. -/
def jsIdxNum (ns : List String) (j : Nat) : Option JSNum :=
  match ns.get? j with
  | none => none
  | some t => if jsTruthy (parseFloat t) then some (parseFloat t) else none

/-- The record pushed for one qualifying text line: name is the whole line,
numeric fields are the window's tokens mapped positionally through
`parseFloat(...) || null`. -/
def mkTextBond (countryName line now : String) (numbers : List String) : Bond :=
  { country := countryName, name := line,
    coupon := jsIdxNum numbers 0,
    price := jsIdxNum numbers 1,
    yield := jsIdxNum numbers 2,
    oneMonth := jsIdxNum numbers 3,
    oneYear := jsIdxNum numbers 4,
    scrapedAt := now }

/-- `pageText.split('\n').map(trim).filter(length > 0)`. -/
def pageLines (bodyText : String) : List String :=
  ((splitOnChar '\n' bodyText.toList).map (fun g => jsTrim (String.mk g))).filter
    (fun l => decide (0 < l.length))

/-- Records contributed by the line at index `i`: the candidate-line test
(keyword-or-percent, a decimal token, length over 5), then the up-to-4-line
context window `lines.slice(max(0, i-1), i+3)` joined by spaces. -/
def lineBonds (lines : List String) (keywords : List String)
    (countryName now : String) (i : Nat) : List Bond :=
  let line := lines.getD i ""
  let hasKeyword := keywords.any (fun k => strIncludes (toLowerStr line) k)
  let hasNumbers := !(scanNumbers line.toList).isEmpty
  let hasPercent := strIncludes line "%"
  if (hasKeyword || hasPercent) && hasNumbers && decide (5 < line.length) then
    let context := joinSp ((lines.drop (i - 1)).take (i + 3 - (i - 1)))
    let numbers := scanNumbers context.toList
    if 1 ≤ numbers.length then [mkTextBond countryName line now numbers] else []
  else []

/-- Strategy 3 of `scrapeCountryBonds`: scan the trimmed non-empty lines of
`document.body.innerText` in order. -/
def extractFromText (doc : RenderedDoc) (countryName now : String) : List Bond :=
  let lines := pageLines doc.bodyText
  let keywords := bondKeywords countryName
  (List.range lines.length).foldl
    (fun acc i => acc ++ lineBonds lines keywords countryName now i) []

/-! ### The Country Extraction Pipeline and orchestration -/

/-- Body of `page.evaluate` in `scrapeCountryBonds`: strategy 1, then
strategy 2 only if the accumulator is still empty, then strategy 3 only if
it is still empty. -/
def evaluateDoc (doc : RenderedDoc) (countryName now : String) : List Bond :=
  let bonds1 := extractFromTables doc countryName now
  let bonds2 :=
    if bonds1.length = 0 then bonds1 ++ extractFromSelectors doc countryName now else bonds1
  if bonds2.length = 0 then bonds2 ++ extractFromText doc countryName now else bonds2

/-- Outcome of navigating and rendering one country's page: the rendered
document, or the thrown error (timeout, network failure, ...). -/
abbrev NavResult : Type := Except String RenderedDoc

/-- `scrapeCountryBonds`: the whole `try` block is guarded by
`catch (error) { await page.close(); return []; }` — any navigation or
evaluation failure yields the empty record list. -/
def scrapeCountryBonds (nav : NavResult) (countryName now : String) : List Bond :=
  match nav with
  | .error _ => []
  | .ok doc => evaluateDoc doc countryName now

/-- `scrapeAllCountries`: iterate the country list, appending each
country's records to the aggregate (`allData.push(...countryData)`).  Each
run is a country display name paired with its navigation outcome. -/
def scrapeAllCountries (runs : List (String × NavResult)) (now : String) : List Bond :=
  runs.foldl (fun acc r => acc ++ scrapeCountryBonds r.2 r.1 now) []

/-- The predicate of the 10-Year filter in `main`. -/
def keepTenYear (b : Bond) : Bool :=
  strIncludes b.name "10 Year" &&
  !(strIncludes (toLowerStr b.name) "muni") &&
  !(strIncludes (toLowerStr b.name) "inflation") &&
  !(strIncludes b.name "II")

/-- The Result Filter: `allResults.filter(...)` in `main`. -/
def filterTenYear (bs : List Bond) : List Bond := bs.filter keepTenYear

/-! ### Concrete documents used as test inputs and counterexamples -/

/-- The spec's structured-table example document. -/
def docA : RenderedDoc :=
  { tables := [[["Name", "Coupon", "Price", "Yield"],
                ["US 10 Year", "4.25%", "98.50", "4.40%"]]],
    elements := [], bodyText := "" }

/-- An element whose class attribute is `bond-table`. -/
def elB : SelElement :=
  { className := "bond-table", dataModule := none, dataTestid := none, role := none,
    rows := [["Name", "Coupon"], ["US 10 Year", "4.25"]] }

/-- A document with no tables whose only container is `elB`. -/
def docB : RenderedDoc := { tables := [], elements := [elB], bodyText := "" }

/-- A document reaching the freeform-text tier. -/
def docC : RenderedDoc :=
  { tables := [], elements := [], bodyText := "US Treasury 10 Year 4.25 98.50" }

/-- A table document whose coupon cell reads `Infinity`. -/
def docInf : RenderedDoc :=
  { tables := [[["Name", "Coupon"], ["US 10 Year", "Infinity"]]],
    elements := [], bodyText := "" }

/-- A text-only document whose qualifying line carries five decimal tokens,
the first of value zero. -/
def docZero : RenderedDoc :=
  { tables := [], elements := [], bodyText := "treasury 0.0 1.1 2.2 3.3 4.4" }

/-- The record strategy 1 extracts from `docA`. -/
def bondA : Bond :=
  { country := "US", name := "US 10 Year",
    coupon := some (.finite ⟨425, 2⟩), price := some (.finite ⟨9850, 2⟩),
    yield := some (.finite ⟨440, 2⟩), oneMonth := none, oneYear := none,
    scrapedAt := "T" }

/-- The record strategy 2 extracts from `docB`, per matching selector. -/
def selBond : Bond :=
  { country := "US", name := "US 10 Year",
    coupon := some (.finite ⟨425, 2⟩), price := none, yield := none,
    oneMonth := none, oneYear := none, scrapedAt := "T" }

/-- A record carrying only a name, as the Result Filter inspects. -/
def namedBond (n : String) : Bond :=
  { country := "US", name := n, coupon := none, price := none, yield := none,
    oneMonth := none, oneYear := none, scrapedAt := "T" }

/-! ### Helper lemmas -/

/-- A fold that appends a per-item contribution is the concatenation of the
contributions. -/
theorem foldl_append_eq_join {α β : Type} (f : α → List β) :
    ∀ (l : List α) (acc : List β),
      l.foldl (fun a x => a ++ f x) acc = acc ++ (l.map f).flatten := by
  intro l
  induction l with
  | nil => intro acc; simp
  | cons x xs ih => intro acc; simp [List.foldl_cons, ih, List.append_assoc]

/-! ### Claim theorems -/

/-- Claim C1: the pipeline's output comes from exactly one extractor tier —
strategy 1's output when it is non-empty, strategy 2's output only when
strategy 1 yields nothing, and strategy 3's output only when both earlier
tiers yield nothing. -/
theorem pipelineTierExclusive (doc : RenderedDoc) (c now : String) :
    (extractFromTables doc c now ≠ [] →
      evaluateDoc doc c now = extractFromTables doc c now) ∧
    (extractFromTables doc c now = [] → extractFromSelectors doc c now ≠ [] →
      evaluateDoc doc c now = extractFromSelectors doc c now) ∧
    (extractFromTables doc c now = [] → extractFromSelectors doc c now = [] →
      evaluateDoc doc c now = extractFromText doc c now) := by
  unfold evaluateDoc
  refine ⟨fun h1 => ?_, fun h1 h2 => ?_, fun h1 h2 => ?_⟩
  · simp [List.length_eq_zero, h1]
  · simp [h1, List.length_eq_zero, h2]
  · simp [h1, h2]

/-- Witness for C1: each tier of the fallback chain observed on a concrete
document. -/
theorem pipelineTierExclusive_witness :
    evaluateDoc docA "US" "T" = extractFromTables docA "US" "T" ∧
    evaluateDoc docB "US" "T" = extractFromSelectors docB "US" "T" ∧
    evaluateDoc docC "US" "T" = extractFromText docC "US" "T" :=
  ⟨(pipelineTierExclusive docA "US" "T").1 (by decide),
   (pipelineTierExclusive docB "US" "T").2.1 (by decide) (by decide),
   (pipelineTierExclusive docC "US" "T").2.2 (by decide) (by decide)⟩

/-- Claim C2: `parseNumeric` maps `""`, `"  "`, `"--"`, `"N/A"` and `"abc"`
to absent, `"1,234.50%"` to `1234.5`, and `"$98.75"` to `98.75`. -/
theorem parseNumericSpecVectors :
    parseNumeric "" = none ∧ parseNumeric "  " = none ∧
    parseNumeric "--" = none ∧ parseNumeric "N/A" = none ∧
    parseNumeric "1,234.50%" = some (JSNum.finite ⟨123450, 2⟩) ∧
    Dec.toQ ⟨123450, 2⟩ = 1234.5 ∧
    parseNumeric "$98.75" = some (JSNum.finite ⟨9875, 2⟩) ∧
    Dec.toQ ⟨9875, 2⟩ = 98.75 ∧
    parseNumeric "abc" = none :=
  ⟨by decide, by decide, by decide, by decide, by decide,
   by norm_num [Dec.toQ], by decide, by norm_num [Dec.toQ], by decide⟩

/-- Claim C3: on the spec's example table, strategy 1 produces exactly one
record with name `US 10 Year`, coupon `4.25`, price `98.5`, yield `4.4`,
and the two horizon fields absent. -/
theorem tableExtractorExample :
    extractFromTables docA "US" "T" = [bondA] ∧
    Dec.toQ ⟨425, 2⟩ = 4.25 ∧ Dec.toQ ⟨9850, 2⟩ = 98.5 ∧ Dec.toQ ⟨440, 2⟩ = 4.4 :=
  ⟨by decide, by norm_num [Dec.toQ], by norm_num [Dec.toQ], by norm_num [Dec.toQ]⟩

/-- Claim C4: the Result Filter keeps a record iff its name contains
`10 Year`, contains neither `muni` nor `inflation` case-insensitively, and
does not contain `II`; it is order-preserving (a sublist of its input); on
the spec's four names only `US 10 Year` survives. -/
theorem filterTenYearCharacterization :
    (∀ bs : List Bond, List.Sublist (filterTenYear bs) bs) ∧
    (∀ (bs : List Bond) (b : Bond),
      b ∈ filterTenYear bs ↔
        b ∈ bs ∧ (strIncludes b.name "10 Year" = true ∧
          strIncludes (toLowerStr b.name) "muni" = false ∧
          strIncludes (toLowerStr b.name) "inflation" = false ∧
          strIncludes b.name "II" = false)) ∧
    filterTenYear [namedBond "US 10 Year", namedBond "US 10 Year TIPS (Inflation)",
      namedBond "UK Muni 10 Year", namedBond "US 10 Year II"] = [namedBond "US 10 Year"] := by
  refine ⟨fun bs => List.filter_sublist bs, fun bs b => ?_, by decide⟩
  simp only [filterTenYear, List.mem_filter, keepTenYear, Bool.and_eq_true,
    Bool.not_eq_true', and_assoc]

/-- Claim C7: a navigation or render failure yields the empty record list
for that country, and the aggregate over a run containing such a failure
equals the concatenation of the other countries' outputs. -/
theorem navFailureYieldsEmpty (pre post : List (String × NavResult))
    (c msg now : String) :
    scrapeCountryBonds (Except.error msg) c now = [] ∧
    scrapeAllCountries (pre ++ (c, Except.error msg) :: post) now =
      scrapeAllCountries pre now ++ scrapeAllCountries post now := by
  constructor
  · rfl
  · unfold scrapeAllCountries
    rw [foldl_append_eq_join, foldl_append_eq_join, foldl_append_eq_join]
    simp [scrapeCountryBonds]

/-- Claim C8: the Result Filter is idempotent. -/
theorem filterTenYearIdempotent :
    ∀ bs : List Bond, filterTenYear (filterTenYear bs) = filterTenYear bs := by
  intro bs
  simp [filterTenYear, List.filter_filter]

/-- Claim C9: `parseNumeric` accepts `"4.25 bps"` — not a well-formed
number, as its non-prefix characters show — returning the prefix value
`4.25`. -/
theorem parseNumericPrefixParse :
    parseNumeric "4.25 bps" = some (JSNum.finite ⟨425, 2⟩) ∧
    Dec.toQ ⟨425, 2⟩ = 4.25 ∧
    ("4.25 bps".toList.all (fun c => c.isDigit || c == '.')) = false :=
  ⟨by decide, by norm_num [Dec.toQ], by decide⟩

/-- Claim C10: on a document whose single container has class `bond-table`
and one data row, strategy 2 emits that row three times (the selectors
`.bond-table`, `[class*="table"]` and `[class*="bond"]` all match). -/
theorem selectorOverlapDuplicates :
    extractFromSelectors docB "US" "T" = [selBond, selBond, selBond] ∧
    docB.elements.map (fun e => e.rows.length) = [2] := by decide

/-! ### The numeric-field invariant (claim C6) -/

/-- The numeric field of a record at position `j` (0 = coupon, 1 = price,
2 = yield, 3 = short horizon, 4 = long horizon). -/
def bondField (b : Bond) : Nat → Option JSNum
  | 0 => b.coupon
  | 1 => b.price
  | 2 => b.yield
  | 3 => b.oneMonth
  | 4 => b.oneYear
  | _ => none

/-- No numeric field of the record is the JavaScript `NaN`. -/
def bondNoNaN (b : Bond) : Prop :=
  b.coupon ≠ some JSNum.nan ∧ b.price ≠ some JSNum.nan ∧ b.yield ≠ some JSNum.nan ∧
  b.oneMonth ≠ some JSNum.nan ∧ b.oneYear ≠ some JSNum.nan

theorem parseNumeric_ne_nan (t : String) : parseNumeric t ≠ some JSNum.nan := by
  unfold parseNumeric
  split
  · simp
  · dsimp only
    split
    · simp
    · simp_all

theorem jsIdxNum_ne_nan (ns : List String) (j : Nat) : jsIdxNum ns j ≠ some JSNum.nan := by
  unfold jsIdxNum
  split
  · simp
  · split
    · rename_i t _ htr
      intro hc
      rw [Option.some_inj] at hc
      rw [hc] at htr
      simp [jsTruthy] at htr
    · simp

theorem tableRowBond_noNaN {c now : String} {row : List String} {b : Bond}
    (h : tableRowBond c now row = some b) : bondNoNaN b := by
  unfold tableRowBond at h
  split at h
  · exact absurd h (by simp)
  · dsimp only at h
    split at h
    · rw [Option.some_inj] at h
      subst h
      exact ⟨parseNumeric_ne_nan _, parseNumeric_ne_nan _, parseNumeric_ne_nan _,
             parseNumeric_ne_nan _, parseNumeric_ne_nan _⟩
    · exact absurd h (by simp)

theorem selRowBond_noNaN {c now : String} {row : List String} {b : Bond}
    (h : selRowBond c now row = some b) : bondNoNaN b := by
  unfold selRowBond at h
  split at h
  · exact absurd h (by simp)
  · dsimp only at h
    split at h
    · rw [Option.some_inj] at h
      subst h
      exact ⟨parseNumeric_ne_nan _, parseNumeric_ne_nan _, parseNumeric_ne_nan _,
             parseNumeric_ne_nan _, parseNumeric_ne_nan _⟩
    · exact absurd h (by simp)

theorem mkTextBond_noNaN (c l now : String) (ns : List String) :
    bondNoNaN (mkTextBond c l now ns) :=
  ⟨jsIdxNum_ne_nan _ _, jsIdxNum_ne_nan _ _, jsIdxNum_ne_nan _ _,
   jsIdxNum_ne_nan _ _, jsIdxNum_ne_nan _ _⟩

theorem mem_extractFromTables_noNaN {doc : RenderedDoc} {c now : String} {b : Bond}
    (h : b ∈ extractFromTables doc c now) : bondNoNaN b := by
  unfold extractFromTables at h
  rw [foldl_append_eq_join] at h
  simp only [List.nil_append, List.mem_flatten, List.mem_map] at h
  obtain ⟨l, ⟨t, ht, rfl⟩, hb⟩ := h
  unfold tableBonds at hb
  split at hb
  · simp at hb
  · split at hb
    · obtain ⟨row, hrow, hsome⟩ := List.mem_filterMap.mp hb
      exact tableRowBond_noNaN hsome
    · simp at hb

theorem mem_extractFromSelectors_noNaN {doc : RenderedDoc} {c now : String} {b : Bond}
    (h : b ∈ extractFromSelectors doc c now) : bondNoNaN b := by
  unfold extractFromSelectors at h
  rw [foldl_append_eq_join] at h
  simp only [List.nil_append, List.mem_flatten, List.mem_map] at h
  obtain ⟨l, ⟨sel, hsel, rfl⟩, hb⟩ := h
  unfold selectorBonds at hb
  rw [foldl_append_eq_join] at hb
  simp only [List.nil_append, List.mem_flatten, List.mem_map] at hb
  obtain ⟨l2, ⟨el, hel, rfl⟩, hb⟩ := hb
  unfold elementBonds at hb
  obtain ⟨row, hrow, hsome⟩ := List.mem_filterMap.mp hb
  exact selRowBond_noNaN hsome

theorem mem_extractFromText_noNaN {doc : RenderedDoc} {c now : String} {b : Bond}
    (h : b ∈ extractFromText doc c now) : bondNoNaN b := by
  unfold extractFromText at h
  rw [foldl_append_eq_join] at h
  simp only [List.nil_append, List.mem_flatten, List.mem_map] at h
  obtain ⟨l, ⟨i, hi, rfl⟩, hb⟩ := h
  unfold lineBonds at hb
  dsimp only at hb
  split at hb
  · split at hb
    · rw [List.mem_singleton] at hb
      subst hb
      exact mkTextBond_noNaN _ _ _ _
    · simp at hb
  · simp at hb

theorem mem_evaluateDoc_noNaN {doc : RenderedDoc} {c now : String} {b : Bond}
    (h : b ∈ evaluateDoc doc c now) : bondNoNaN b := by
  unfold evaluateDoc at h
  dsimp only at h
  split at h
  · split at h
    · rcases List.mem_append.mp h with h | h
      · rcases List.mem_append.mp h with h | h
        · exact mem_extractFromTables_noNaN h
        · exact mem_extractFromSelectors_noNaN h
      · exact mem_extractFromText_noNaN h
    · rcases List.mem_append.mp h with h | h
      · exact mem_extractFromTables_noNaN h
      · exact mem_extractFromSelectors_noNaN h
  · exact mem_extractFromTables_noNaN h

/-- Claim C6 (amended): every record any extractor tier produces has numeric
fields that are never `NaN` — `NaN` parses are replaced by absent — but
they are not always finite: a cell can parse to an infinity (see the
counterexample). -/
theorem numericFieldsNeverNaN :
    ∀ (doc : RenderedDoc) (c now : String) (b : Bond),
      b ∈ evaluateDoc doc c now → bondNoNaN b :=
  fun _ _ _ _ h => mem_evaluateDoc_noNaN h

/-- Witness for the amended C6 at a concrete document and record. -/
theorem numericFieldsNeverNaN_witness : bondNoNaN bondA :=
  numericFieldsNeverNaN docA "US" "T" bondA (by decide)

/-- Counterexample to C6 as stated: a table cell reading `Infinity` is
parsed to a coupon that is neither absent nor `NaN` nor finite. -/
theorem numericFieldInfinityCex :
    (extractFromTables docInf "US" "T").map (fun b => b.coupon) = [some JSNum.posInf] ∧
    JSNum.posInf.isFinite = false ∧ JSNum.posInf ≠ JSNum.nan := by decide

/-! ### Well-formedness of regex-scanned tokens (claim C5) -/

theorem digit_not_ws {c : Char} (h : c.isDigit = true) : c.isWhitespace = false := by
  rcases hws : c.isWhitespace with _ | _
  · rfl
  · exfalso
    have h4 : ((c = ' ' ∨ c = '\t') ∨ c = '\r') ∨ c = '\n' := by
      simpa [Char.isWhitespace] using hws
    rcases h4 with ((rfl | rfl) | rfl) | rfl <;> exact absurd h (by decide)

theorem beq_digit_false {c x : Char} (h : c.isDigit = true) (hx : x.isDigit = false) :
    (x == c) = false := by
  rcases hbe : x == c with _ | _
  · rfl
  · rw [beq_iff_eq] at hbe
    subst hbe
    rw [h] at hx
    exact Bool.noConfusion hx

theorem digit_beq_false {c x : Char} (h : c.isDigit = true) (hx : x.isDigit = false) :
    (c == x) = false := by
  rcases hbe : c == x with _ | _
  · rfl
  · rw [beq_iff_eq] at hbe
    subst hbe
    rw [h] at hx
    exact Bool.noConfusion hx

theorem takeWhile_append_of_all {p : Char → Bool} (ds l : List Char)
    (h : ∀ c ∈ ds, p c = true) :
    (ds ++ l).takeWhile p = ds ++ l.takeWhile p := by
  induction ds with
  | nil => rfl
  | cons d ds ih =>
    have hd : p d = true := h d (List.mem_cons_self d ds)
    rw [List.cons_append, List.takeWhile_cons, hd]
    rw [ih (fun c hc => h c (List.mem_cons_of_mem d hc))]
    rfl

theorem dropWhile_append_of_all {p : Char → Bool} (ds l : List Char)
    (h : ∀ c ∈ ds, p c = true) :
    (ds ++ l).dropWhile p = l.dropWhile p := by
  induction ds with
  | nil => rfl
  | cons d ds ih =>
    have hd : p d = true := h d (List.mem_cons_self d ds)
    rw [List.cons_append, List.dropWhile_cons, hd]
    exact ih (fun c hc => h c (List.mem_cons_of_mem d hc))

theorem takeWhile_eq_self_of_all {p : Char → Bool} (l : List Char)
    (h : ∀ c ∈ l, p c = true) : l.takeWhile p = l := by
  have := takeWhile_append_of_all l [] h
  simpa using this

theorem dropWhile_eq_nil_of_all {p : Char → Bool} (l : List Char)
    (h : ∀ c ∈ l, p c = true) : l.dropWhile p = [] := by
  have := dropWhile_append_of_all l [] h
  simpa using this

/-- Shape of every token the scanner can emit: a non-empty digit run, a
dot, then a non-empty digit run. -/
def goodToken (t : String) : Prop :=
  ∃ ds fs, t.toList = ds ++ '.' :: fs ∧ ds ≠ [] ∧ fs ≠ [] ∧
    (∀ c ∈ ds, c.isDigit = true) ∧ (∀ c ∈ fs, c.isDigit = true)

theorem scanGo_good : ∀ (fuel : Nat) (cs : List Char) (t : String),
    t ∈ scanGo fuel cs → goodToken t := by
  intro fuel
  induction fuel with
  | zero => intro cs t ht; simp [scanGo] at ht
  | succ n ih =>
    intro cs t ht
    match cs with
    | [] => simp [scanGo] at ht
    | c :: rest =>
      rw [scanGo] at ht
      split at ht
      · rename_i hdig
        dsimp only at ht
        split at ht
        · rename_i r2 heq
          split at ht
          · exact ih _ t ht
          · rename_i hfs
            rcases List.mem_cons.mp ht with rfl | htl
            · refine ⟨(c :: rest).takeWhile Char.isDigit,
                (r2.takeWhile Char.isDigit).take 4, rfl, ?_, ?_, ?_, ?_⟩
              · rw [List.takeWhile_cons, hdig]
                simp
              · rcases hfse : r2.takeWhile Char.isDigit with _ | ⟨x, xs⟩
                · rw [hfse] at hfs
                  simp at hfs
                · simp [hfse]
              · intro a ha
                exact List.mem_takeWhile_imp ha
              · intro a ha
                exact List.mem_takeWhile_imp (List.mem_of_mem_take ha)
            · exact ih _ t htl
        · exact ih _ t ht
      · exact ih _ t ht

theorem parseSigned_not_sign {c : Char} {l : List Char} (h1 : (c == '-') = false)
    (h2 : (c == '+') = false) : parseSigned (c :: l) = parseMag (c :: l) := by
  unfold parseSigned
  dsimp only
  rw [h1, h2]
  simp

theorem parseMag_not_inf {cs : List Char} (h : startsWithChars infinityChars cs = false) :
    parseMag cs = parseSig cs := by
  unfold parseMag
  rw [h]
  simp

theorem parseSig_good (ds fs : List Char) (hds : ds ≠ [])
    (hdall : ∀ c ∈ ds, c.isDigit = true) (hfall : ∀ c ∈ fs, c.isDigit = true) :
    ∃ d : Dec, parseSig (ds ++ '.' :: fs) = JSNum.finite d := by
  unfold parseSig
  have h1 : (ds ++ '.' :: fs).takeWhile Char.isDigit = ds := by
    rw [takeWhile_append_of_all _ _ hdall, List.takeWhile_cons]
    simp
  have h2 : (ds ++ '.' :: fs).dropWhile Char.isDigit = '.' :: fs := by
    rw [dropWhile_append_of_all _ _ hdall, List.dropWhile_cons]
    simp
  rw [h1, h2]
  show ∃ d,
    (if (ds.isEmpty && (fs.takeWhile Char.isDigit).isEmpty) = true then JSNum.nan
     else JSNum.finite (applyExp (sigValue ds (fs.takeWhile Char.isDigit))
       (parseExp (fs.dropWhile Char.isDigit)))) = JSNum.finite d
  rw [takeWhile_eq_self_of_all fs hfall, dropWhile_eq_nil_of_all fs hfall]
  obtain ⟨d0, ds', rfl⟩ : ∃ d0 ds', ds = d0 :: ds' := by
    cases ds with
    | nil => exact absurd rfl hds
    | cons a l => exact ⟨a, l, rfl⟩
  simp only [List.isEmpty_cons, Bool.false_and, Bool.false_eq_true, if_false]
  exact ⟨_, rfl⟩

/-- Every token the scanner emits parses to a finite value. -/
theorem goodToken_finite (t : String) (h : goodToken t) :
    ∃ d : Dec, parseFloat t = JSNum.finite d := by
  obtain ⟨ds, fs, htl, hds, hfs, hdall, hfall⟩ := h
  obtain ⟨d0, ds', rfl⟩ : ∃ d0 ds', ds = d0 :: ds' := by
    cases ds with
    | nil => exact absurd rfl hds
    | cons a l => exact ⟨a, l, rfl⟩
  have hd0 : d0.isDigit = true := hdall d0 (List.mem_cons_self _ _)
  have hws : (d0 :: (ds' ++ '.' :: fs)).dropWhile Char.isWhitespace =
      d0 :: (ds' ++ '.' :: fs) := by
    rw [List.dropWhile_cons, digit_not_ws hd0]
    simp
  have hInf : startsWithChars infinityChars (d0 :: (ds' ++ '.' :: fs)) = false := by
    rw [infinityChars, startsWithChars,
      beq_digit_false hd0 (by decide : ('I').isDigit = false)]
    simp
  unfold parseFloat parseFloatChars
  rw [htl, List.cons_append, hws]
  rw [parseSigned_not_sign (digit_beq_false hd0 (by decide : ('-').isDigit = false))
    (digit_beq_false hd0 (by decide : ('+').isDigit = false))]
  rw [parseMag_not_inf hInf]
  rw [← List.cons_append]
  exact parseSig_good (d0 :: ds') fs (by simp) hdall hfall

/-- The zero test on an exact decimal is a test on its numerator. -/
theorem Dec.toQ_eq_zero_iff (d : Dec) : d.toQ = 0 ↔ d.num = 0 := by
  unfold Dec.toQ
  rw [div_eq_zero_iff]
  have hp : ((10 : ℚ) ^ d.scale) ≠ 0 := pow_ne_zero _ (by norm_num)
  constructor
  · rintro (h | h)
    · exact_mod_cast h
    · exact absurd h hp
  · intro h
    left
    exact_mod_cast h

/-- On the first five positions, the fields of a text-tier record are the
`parseFloat(numbers[j]) || null` values. -/
theorem bondField_mkTextBond (c l now : String) (ns : List String) (j : Nat)
    (hj : j < 5) : bondField (mkTextBond c l now ns) j = jsIdxNum ns j := by
  rcases j with _ | _ | _ | _ | _ | j
  · rfl
  · rfl
  · rfl
  · rfl
  · rfl
  · omega

/-- Behaviour of `parseFloat(numbers[j]) || null` on a present token with a
finite parse: the value unless it is zero, absent when it is zero. -/
theorem jsIdxNum_spec (ns : List String) (j : Nat) (t : String)
    (hget : ns.get? j = some t) (d : Dec) (hd : parseFloat t = JSNum.finite d) :
    (Dec.toQ d ≠ 0 → jsIdxNum ns j = some (JSNum.finite d)) ∧
    (Dec.toQ d = 0 → jsIdxNum ns j = none) := by
  unfold jsIdxNum
  rw [hget]
  dsimp only
  rw [hd]
  constructor
  · intro hq
    have hnum : d.num ≠ 0 := fun h0 => hq ((Dec.toQ_eq_zero_iff d).mpr h0)
    simp [jsTruthy, hnum]
  · intro hq
    have h0 : d.num = 0 := (Dec.toQ_eq_zero_iff d).mp hq
    simp [jsTruthy, h0]

/-- Claim C5 (amended): in the Freeform-Text Extractor, the window's
decimal tokens — each of which parses to a finite value — are mapped
positionally, in order, to the five numeric fields, and a field whose
positional token is missing is absent; but a present token also yields an
absent field when its numeric value is `0`, because the code coerces the
falsy `0` to `null` (`parseFloat(numbers[j]) || null`). -/
theorem textExtractorPositionalAmended (countryName line now : String) (s : List Char) :
    (∀ t ∈ scanNumbers s, ∃ d : Dec, parseFloat t = JSNum.finite d) ∧
    (∀ j, (scanNumbers s).length ≤ j →
      bondField (mkTextBond countryName line now (scanNumbers s)) j = none) ∧
    (∀ j t, j < 5 → (scanNumbers s).get? j = some t →
      ∀ d : Dec, parseFloat t = JSNum.finite d →
        (Dec.toQ d ≠ 0 →
          bondField (mkTextBond countryName line now (scanNumbers s)) j =
            some (JSNum.finite d)) ∧
        (Dec.toQ d = 0 →
          bondField (mkTextBond countryName line now (scanNumbers s)) j = none)) := by
  refine ⟨?_, ?_, ?_⟩
  · intro t ht
    exact goodToken_finite t (scanGo_good _ _ t ht)
  · intro j hj
    by_cases hj5 : j < 5
    · rw [bondField_mkTextBond _ _ _ _ _ hj5]
      unfold jsIdxNum
      rw [List.get?_eq_none.mpr hj]
    · obtain ⟨m, rfl⟩ : ∃ m, j = m + 5 := ⟨j - 5, by omega⟩
      rfl
  · intro j t hj hget d hd
    rw [bondField_mkTextBond _ _ _ _ _ hj]
    exact jsIdxNum_spec _ _ _ hget d hd

/-- Witness for the amended C5 on the tokens of `"treasury 0.0 1.5"`: the
zero-valued first token yields an absent coupon, the second token carries
its value into the price, and the missing third token leaves yield absent. -/
theorem textExtractorPositionalAmended_witness :
    bondField (mkTextBond "United States" "L" "T"
      (scanNumbers "treasury 0.0 1.5".toList)) 0 = none ∧
    bondField (mkTextBond "United States" "L" "T"
      (scanNumbers "treasury 0.0 1.5".toList)) 1 = some (JSNum.finite ⟨15, 1⟩) ∧
    bondField (mkTextBond "United States" "L" "T"
      (scanNumbers "treasury 0.0 1.5".toList)) 2 = none := by
  refine ⟨?_, ?_, ?_⟩
  · exact ((textExtractorPositionalAmended "United States" "L" "T"
      "treasury 0.0 1.5".toList).2.2 0 "0.0" (by decide) (by decide)
      ⟨0, 1⟩ (by decide)).2 (by norm_num [Dec.toQ])
  · exact ((textExtractorPositionalAmended "United States" "L" "T"
      "treasury 0.0 1.5".toList).2.2 1 "1.5" (by decide) (by decide)
      ⟨15, 1⟩ (by decide)).1 (by norm_num [Dec.toQ])
  · exact (textExtractorPositionalAmended "United States" "L" "T"
      "treasury 0.0 1.5".toList).2.1 2 (by decide)

/-- Counterexample to C5 as stated: on `docZero` the qualifying line's
window holds five tokens, yet the first field is absent because the first
token's value is `0` — with five tokens present, not all five fields carry
the corresponding token values. -/
theorem textExtractorZeroTokenCex :
    extractFromText docZero "United States" "T" =
      [{ country := "United States", name := "treasury 0.0 1.1 2.2 3.3 4.4",
         coupon := none, price := some (.finite ⟨11, 1⟩),
         yield := some (.finite ⟨22, 1⟩), oneMonth := some (.finite ⟨33, 1⟩),
         oneYear := some (.finite ⟨44, 1⟩), scrapedAt := "T" }] ∧
    (scanNumbers "treasury 0.0 1.1 2.2 3.3 4.4".toList).length = 5 := by decide
